import Mathlib

/-!
Shallow embedding of `alecthomas/expr` (src/expr.go): a compiler and
evaluator for Go-like expressions evaluated against named values.

The Go code parses source text with the Go standard library
(`go/parser.ParseExpr`), collects identifier terms (`index`), and evaluates
the resulting `go/ast` tree (`eval`), using `panic`/`recover` to report
evaluation failures.  The embedding models:

  * the dynamic value universe (`Value`), matching the normalized Go types
    `nil | bool | int64 | uint64 | float64 | string | V` (nested map);
  * the relevant `go/ast` fragment (`Ast`) and Go operator tokens;
  * the tokenizer and precedence-climbing parser of `go/parser`
    (restricted to the expression fragment this package can consume:
     identifiers, int/float/string literals, unary and binary operators,
     parentheses and selectors) with Go operator precedence
    (`go/token.(Token).Precedence`);
  * `index`, `eval`, the casts (`intCast`, `uintCast`, `floatCast`,
    `boolCast`, `stringCast`) and the public wrappers
    (`Compile`, `Expression.Eval`, `Expression.Bool`).

Go panics are modelled with `Except Panic`; a `Panic` records whether the
panicked value was a Go `error` (`perr`, from `fmt.Errorf` or a runtime
error) or a plain string (`pstr`, from `panic(err.Error())` in the literal
cases of `eval`).  The distinction matters: the deferred `recover` in
`Expression.Eval` runs `err = e.(error)`, a type assertion that succeeds
for `error` values and itself panics (crashing the process) for strings.

Machine integers are modelled as `Int`/`Nat` with explicit reduction
modulo `2^64`; `int64` values use the two's-complement representative in
`[-2^63, 2^63)`.
-/

namespace ExprGo

/-- Dynamic values: the normalized forms of Go values handled by
`src/expr.go` (`nil`, `bool`, `int64`, `uint64`, `float64`, `string`,
and the nested map type `V`).  `vint` carries the two's-complement
representative of an `int64` and `vuint` the value of a `uint64`. -/
inductive Value where
  | vnull
  | vbool (b : Bool)
  | vint (i : Int)
  | vuint (u : Nat)
  | vfloat (f : Float)
  | vstring (s : String)
  | vmap (m : List (String × Value))
deriving Inhabited

/-- `v == nil` on a Go interface value: true exactly for the nil value. -/
def Value.isNull : Value → Bool
  | .vnull => true
  | _ => false

/-- The value belongs to one of the four scalar operand families of the
binary type switch (`int64`, `uint64`, `float64`, `string`). -/
def Value.isNumStr : Value → Bool
  | .vint _ => true
  | .vuint _ => true
  | .vfloat _ => true
  | .vstring _ => true
  | _ => false

/-- Binary operator tokens (`go/token`) producible by the expression
grammar and inspected by `eval`. -/
inductive BinOp where
  | lor | land
  | eql | neq | lss | gtr | leq | geq
  | add | sub | mul | quo | rem
  | shl | shr
  | and | or | xor | andnot
deriving DecidableEq, Inhabited

/-- Unary operator tokens accepted by `go/parser` in this fragment. -/
inductive UnOp where
  | not | add | sub | xor
deriving DecidableEq, Inhabited

/-- Literal kinds of `go/ast.BasicLit` relevant here. -/
inductive LitKind where
  | int | float | str
deriving DecidableEq, Inhabited

/-- The `go/ast` fragment consumed by `eval` and `index`: binary and unary
expressions, basic literals (carrying their source text, as in
`ast.BasicLit.Value`), parenthesised expressions, identifiers and
selector expressions. -/
inductive Ast where
  | binary (op : BinOp) (x y : Ast)
  | basicLit (kind : LitKind) (value : String)
  | paren (x : Ast)
  | unary (op : UnOp) (x : Ast)
  | ident (name : String)
  | selector (x : Ast) (sel : String)
deriving DecidableEq, Inhabited

/-- The environment `V`: a map of name/value pairs (first binding wins,
modelling Go map lookup on distinct keys). -/
def Env := List (String × Value)

/-- Go map lookup `value[name]`. -/
def lookupEnv (env : Env) (name : String) : Option Value :=
  match env with
  | [] => none
  | (k, v) :: rest => if k = name then some v else lookupEnv rest name

/-- A Go panic, as observed by `recover`: either a value implementing
`error` (`fmt.Errorf` results and runtime errors) or a plain string
(`panic(err.Error())` in the `BasicLit` cases of `eval`). -/
inductive Panic where
  | perr (msg : String)
  | pstr (msg : String)
deriving DecidableEq, Inhabited

/-! ## Two's-complement helpers for Go `int64`/`uint64` semantics -/

/-- Reinterpret an `int64` representative as its `uint64` bit pattern. -/
def toU64 (x : Int) : Nat := (x % (2 ^ 64 : Int)).toNat

/-- Reinterpret a `uint64` bit pattern as an `int64` representative. -/
def ofU64 (n : Nat) : Int :=
  if n < 2 ^ 63 then (n : Int) else (n : Int) - 2 ^ 64

/-- Wrap an unbounded integer to the `int64` range (Go's two's-complement
overflow behaviour for `+`, `-`, `*`, `<<` and `/` at `MinInt64 / -1`). -/
def wrap64 (x : Int) : Int := (x + 2 ^ 63) % 2 ^ 64 - 2 ^ 63

/-- `uint64` bitwise complement (operands are below `2^64`). -/
def complement64 (n : Nat) : Nat := Nat.xor (2 ^ 64 - 1) n

/-- Go `int64` bitwise AND via the `uint64` bit patterns. -/
def and64 (a b : Int) : Int := ofU64 (Nat.land (toU64 a) (toU64 b))

/-- Go `int64` bitwise OR. -/
def or64 (a b : Int) : Int := ofU64 (Nat.lor (toU64 a) (toU64 b))

/-- Go `int64` bitwise XOR. -/
def xor64 (a b : Int) : Int := ofU64 (Nat.xor (toU64 a) (toU64 b))

/-- Go `int64` AND-NOT (`a &^ b = a & ^b`). -/
def andnot64 (a b : Int) : Int :=
  ofU64 (Nat.land (toU64 a) (complement64 (toU64 b)))

/-- Go's truncating `float64 → int64` conversion.  Go leaves the
out-of-range/NaN cases implementation-defined; the model truncates the
magnitude through `Float.toUInt64` and reapplies the sign. -/
def floatToInt64 (f : Float) : Int :=
  if f < 0 then -(Int.ofNat (Float.toUInt64 (-f)).toNat)
  else Int.ofNat (Float.toUInt64 f).toNat

/-- Go's truncating `float64 → uint64` conversion (out-of-range cases are
implementation-defined in Go; the model uses `Float.toUInt64`). -/
def floatToU64 (f : Float) : Nat := (Float.toUInt64 f).toNat

/-! ## normalize and the casts -/

/-- `normalize` (src/expr.go): all signed widths widen to `int64`, all
unsigned widths to `uint64`, all float widths to `float64`; strings and
every other value (nil, bool, map) pass through unchanged.  The model's
`Value` already stores the widened forms, so each case is the identity;
the match mirrors the source's type switch. -/
def normalize (v : Value) : Value :=
  match v with
  | .vint rv => .vint rv
  | .vuint rv => .vuint rv
  | .vfloat rv => .vfloat rv
  | .vstring s => .vstring s
  | v => v

/-- Render `op` the way `go/token.(Token).String` does (used in panic
messages built with `%s`). -/
def opString (op : BinOp) : String :=
  match op with
  | .lor => "||" | .land => "&&"
  | .eql => "==" | .neq => "!=" | .lss => "<" | .gtr => ">"
  | .leq => "<=" | .geq => ">="
  | .add => "+" | .sub => "-" | .mul => "*" | .quo => "/" | .rem => "%"
  | .shl => "<<" | .shr => ">>"
  | .and => "&" | .or => "|" | .xor => "^" | .andnot => "&^"

/-- Render a unary operator token string. -/
def unopString (op : UnOp) : String :=
  match op with
  | .not => "!" | .add => "+" | .sub => "-" | .xor => "^"

mutual
/-- `fmt.Sprintf("%v", v)` on the value universe: decimal integers,
`true`/`false`, strings verbatim, `<nil>` for nil, `map[k:v ...]` for
maps.  Float formatting and fmt's sorting of map keys are approximated
(`toString` rendering, entries in representation order); these strings
feed only panic messages and `stringCast`. -/
def sprintV : Value → String
  | .vnull => "<nil>"
  | .vbool b => if b then "true" else "false"
  | .vint i => toString i
  | .vuint u => toString u
  | .vfloat f => toString f
  | .vstring s => s
  | .vmap m => "map[" ++ String.intercalate " " (sprintEntries m) ++ "]"

/-- Entries of a map value rendered as `key:value`. -/
def sprintEntries : List (String × Value) → List String
  | [] => []
  | (k, v) :: rest => (k ++ ":" ++ sprintV v) :: sprintEntries rest
end

/-- `intCast` (src/expr.go): nil → 0; otherwise dispatch on the
normalized value, and panic for values not castable to `int64`. -/
def intCast (v : Value) : Except Panic Int :=
  if v.isNull then .ok 0
  else match normalize v with
    | .vint rv => .ok rv
    | .vuint rv => .ok (ofU64 rv)
    | .vfloat rv => .ok (floatToInt64 rv)
    | .vbool rv => .ok (if rv then 1 else 0)
    | _ => .error (.perr "not castable to an int64")

/-- `uintCast` (src/expr.go). -/
def uintCast (v : Value) : Except Panic Nat :=
  if v.isNull then .ok 0
  else match normalize v with
    | .vint rv => .ok (toU64 rv)
    | .vuint rv => .ok rv
    | .vfloat rv => .ok (floatToU64 rv)
    | .vbool rv => .ok (if rv then 1 else 0)
    | _ => .error (.perr "not castable to an uint64")

/-- `floatCast` (src/expr.go). -/
def floatCast (v : Value) : Except Panic Float :=
  if v.isNull then .ok 0.0
  else match normalize v with
    | .vint rv => .ok (Float.ofInt rv)
    | .vuint rv => .ok (Float.ofNat rv)
    | .vfloat rv => .ok rv
    | .vbool rv => .ok (if rv then 1.0 else 0.0)
    | _ => .error (.perr "not castable to a float64")

/-- `boolCast` (src/expr.go): the truthiness coercion.  nil → false;
bool → itself; string → non-empty; int64/uint64/float64 → nonzero;
anything else panics. -/
def boolCast (v : Value) : Except Panic Bool :=
  if v.isNull then .ok false
  else match normalize v with
    | .vbool rv => .ok rv
    | .vstring rv => .ok (rv != "")
    | .vint rv => .ok (rv != 0)
    | .vuint rv => .ok (rv != 0)
    | .vfloat rv => .ok (rv != 0.0)
    | _ => .error (.perr "unsupported boolean value")

/-- `stringCast` (src/expr.go): nil → empty string, otherwise
`fmt.Sprintf("%v", v)`.  Total. -/
def stringCast (v : Value) : String :=
  if v.isNull then "" else sprintV v

/-! ## Literal re-parsing (`strconv`) -/

/-- Value of a nonempty run of decimal digits, accumulated left to right. -/
def decDigitsAux (acc : Nat) : List Char → Option Nat
  | [] => some acc
  | c :: cs =>
      if c.isDigit then decDigitsAux (acc * 10 + (c.toNat - 48)) cs
      else none

/-- Decimal digit-string value; `none` on the empty string or any
non-digit character (underscores included: base-10 `ParseInt` rejects
digit separators). -/
def decDigitsVal (cs : List Char) : Option Nat :=
  if cs.isEmpty then none else decDigitsAux 0 cs

/-- `strconv.ParseInt(s, 10, 64)`: optional sign, then base-10 digits,
range-checked against `int64`.  The error strings are the `err.Error()`
texts of the returned `*strconv.NumError` — `eval` panics with exactly
these strings. -/
def parseInt64 (s : String) : Except String Int :=
  let (neg, digits) :=
    match s.data with
    | '+' :: rest => (false, rest)
    | '-' :: rest => (true, rest)
    | l => (false, l)
  match decDigitsVal digits with
  | none => .error ("strconv.ParseInt: parsing \"" ++ s ++ "\": invalid syntax")
  | some n =>
    if neg then
      if n ≤ 2 ^ 63 then .ok (-(n : Int))
      else .error ("strconv.ParseInt: parsing \"" ++ s ++ "\": value out of range")
    else
      if n ≤ 2 ^ 63 - 1 then .ok (n : Int)
      else .error ("strconv.ParseInt: parsing \"" ++ s ++ "\": value out of range")

/-- Body of `strconv.Unquote` between the surrounding double quotes:
plain characters plus the common backslash escapes (the model omits
octal/hex/Unicode escapes; any other escape is a syntax error, the
message being `ErrSyntax.Error()`). -/
def unquoteChars : List Char → Except String (List Char)
  | [] => .ok []
  | '\\' :: c :: rest => do
      let e ←
        match c with
        | 'n' => Except.ok '\n'
        | 't' => Except.ok '\t'
        | 'r' => Except.ok '\r'
        | '\\' => Except.ok '\\'
        | '"' => Except.ok '"'
        | _ => Except.error "invalid syntax"
      let tail ← unquoteChars rest
      .ok (e :: tail)
  | '"' :: _ => .error "invalid syntax"
  | c :: rest => do
      let tail ← unquoteChars rest
      .ok (c :: tail)

/-- `strconv.Unquote` on a double-quoted string literal. -/
def unquoteGo (s : String) : Except String String :=
  let cs := s.data
  if 2 ≤ cs.length ∧ cs.head? = some '"' ∧ cs.getLast? = some '"' then
    match unquoteChars ((cs.drop 1).dropLast) with
    | .ok out => .ok (String.mk out)
    | .error e => .error e
  else .error "invalid syntax"

/-- Exponent part of a float literal: `e`/`E`, optional sign, digits. -/
def parseExponent (cs : List Char) : Option Int :=
  match cs with
  | [] => some 0
  | _ :: rest =>
    let (neg, digits) :=
      match rest with
      | '+' :: r => (false, r)
      | '-' :: r => (true, r)
      | r => (false, r)
    match decDigitsVal digits with
    | none => none
    | some n => some (if neg then -(n : Int) else (n : Int))

/-- `strconv.ParseFloat(s, 64)` on the decimal forms the Go scanner
emits for FLOAT tokens (`digits [. digits] [e[±]digits]`; hex floats are
omitted).  Overflow to infinity is `ErrRange`, as in Go. -/
def parseFloatLit (s : String) : Except String Float :=
  let cs := s.data
  let mantissa := cs.takeWhile (fun c => c != 'e' && c != 'E')
  let expPart := cs.drop mantissa.length
  let intPart := mantissa.takeWhile (fun c => c != '.')
  let dotFrac := mantissa.drop intPart.length
  let fracPart := dotFrac.drop 1
  let digitsOk :=
    intPart.all Char.isDigit ∧ fracPart.all Char.isDigit ∧
    ¬(intPart.isEmpty ∧ fracPart.isEmpty) ∧
    (dotFrac.isEmpty ∨ dotFrac.head? = some '.')
  match parseExponent expPart with
  | none => .error ("strconv.ParseFloat: parsing \"" ++ s ++ "\": invalid syntax")
  | some ex =>
    if digitsOk then
      match decDigitsAux 0 (intPart ++ fracPart) with
      | none => .error ("strconv.ParseFloat: parsing \"" ++ s ++ "\": invalid syntax")
      | some m =>
        let net : Int := ex - fracPart.length
        let f := Float.ofScientific m (decide (net < 0)) net.natAbs
        if f.isInf then
          .error ("strconv.ParseFloat: parsing \"" ++ s ++ "\": value out of range")
        else .ok f
    else .error ("strconv.ParseFloat: parsing \"" ++ s ++ "\": invalid syntax")

/-! ## The evaluator -/

/-- The `unsupported expression %v %s %v` panic message at the end of the
binary case. -/
def unsuppExpr (ll : Value) (op : BinOp) (rr : Value) : String :=
  "unsupported expression " ++ sprintV ll ++ " " ++ opString op ++ " " ++ sprintV rr

/-- The type switch `switch l := ll.(type)` of the binary case
(src/expr.go lines 203-345), together with the trailing
`unsupported expression` panic reached when a matched family's inner
operator switch falls through.  `rr` is the (possibly re-normalized)
right value; each family first casts it with its own cast. -/
def binDispatch (op : BinOp) (ll rr : Value) : Except Panic Value :=
  match ll with
  | .vint l => do
      let r ← intCast rr
      match op with
      | .eql => pure (.vbool (l == r))
      | .neq => pure (.vbool (l != r))
      | .lss => pure (.vbool (decide (l < r)))
      | .gtr => pure (.vbool (decide (r < l)))
      | .leq => pure (.vbool (decide (l ≤ r)))
      | .geq => pure (.vbool (decide (r ≤ l)))
      | .add => pure (.vint (wrap64 (l + r)))
      | .sub => pure (.vint (wrap64 (l - r)))
      | .mul => pure (.vint (wrap64 (l * r)))
      | .quo =>
          if r == 0 then throw (.perr "runtime error: integer divide by zero")
          else pure (.vint (wrap64 (Int.tdiv l r)))
      | .rem =>
          if r == 0 then throw (.perr "runtime error: integer divide by zero")
          else pure (.vint (Int.tmod l r))
      | .shl =>
          if r < 0 then throw (.perr "negative shift count")
          else pure (.vint (wrap64 (l * 2 ^ r.toNat)))
      | .shr =>
          if r < 0 then throw (.perr "negative shift count")
          else pure (.vint (Int.ediv l (2 ^ r.toNat)))
      | .and => pure (.vint (and64 l r))
      | .or => pure (.vint (or64 l r))
      | .xor => pure (.vint (xor64 l r))
      | .andnot => pure (.vint (andnot64 l r))
      | _ => throw (.perr (unsuppExpr ll op rr))
  | .vuint l => do
      let r ← uintCast rr
      match op with
      | .eql => pure (.vbool (l == r))
      | .neq => pure (.vbool (l != r))
      | .lss => pure (.vbool (decide (l < r)))
      | .gtr => pure (.vbool (decide (r < l)))
      | .leq => pure (.vbool (decide (l ≤ r)))
      | .geq => pure (.vbool (decide (r ≤ l)))
      | .add => pure (.vuint ((l + r) % 2 ^ 64))
      | .sub => pure (.vuint ((2 ^ 64 + l - r) % 2 ^ 64))
      | .mul => pure (.vuint ((l * r) % 2 ^ 64))
      | .quo =>
          if r == 0 then throw (.perr "runtime error: integer divide by zero")
          else pure (.vuint (l / r))
      | .rem =>
          if r == 0 then throw (.perr "runtime error: integer divide by zero")
          else pure (.vuint (l % r))
      | .shl => pure (.vuint ((l * 2 ^ r) % 2 ^ 64))
      | .shr => pure (.vuint (l / 2 ^ r))
      | .and => pure (.vuint (Nat.land l r))
      | .or => pure (.vuint (Nat.lor l r))
      | .xor => pure (.vuint (Nat.xor l r))
      | .andnot => pure (.vuint (Nat.land l (complement64 r)))
      | _ => throw (.perr (unsuppExpr ll op rr))
  | .vstring l =>
      let r := stringCast rr
      match op with
      | .add => pure (.vstring (l ++ r))
      | .eql => pure (.vbool (l == r))
      | .neq => pure (.vbool (l != r))
      | .lss => pure (.vbool (decide (l < r)))
      | .gtr => pure (.vbool (decide (r < l)))
      | .leq => pure (.vbool (decide (l ≤ r)))
      | .geq => pure (.vbool (decide (r ≤ l)))
      | _ => throw (.perr (unsuppExpr ll op rr))
  | .vfloat l => do
      let r ← floatCast rr
      match op with
      | .add => pure (.vfloat (l + r))
      | .sub => pure (.vfloat (l - r))
      | .mul => pure (.vfloat (l * r))
      | .quo => pure (.vfloat (l / r))
      | .eql => pure (.vbool (l == r))
      | .neq => pure (.vbool (l != r))
      | .lss => pure (.vbool (decide (l < r)))
      | .gtr => pure (.vbool (decide (r < l)))
      | .leq => pure (.vbool (decide (l ≤ r)))
      | .geq => pure (.vbool (decide (r ≤ l)))
      | _ => throw (.perr (unsuppExpr ll op rr))
  | .vnull => pure .vnull
  | .vmap _ => pure ll
  | .vbool _ => throw (.perr ("unsupported type " ++ sprintV ll))

/-- The `if rr == nil` block (src/expr.go lines 192-201): `==`/`!=`
compare `ll` against nullness; any other operator falls through to the
type switch (a non-nil `rr` is re-normalized first, a no-op). -/
def binNullRight (op : BinOp) (ll rr : Value) : Except Panic Value :=
  if rr.isNull then
    match op with
    | .eql => pure (.vbool ll.isNull)
    | .neq => pure (.vbool (!ll.isNull))
    | _ => binDispatch op ll rr
  else binDispatch op ll (normalize rr)

/-- The binary tail after both operands are evaluated and `ll` is known
not to be a `bool` and `op` not `&&`/`||`: the `ll == nil` block
(src/expr.go lines 183-190), then `binNullRight`. -/
def binRest (op : BinOp) (ll rr : Value) : Except Panic Value :=
  if ll.isNull then
    match op with
    | .eql => pure (.vbool rr.isNull)
    | .neq => pure (.vbool (!rr.isNull))
    | _ => binNullRight op ll rr
  else binNullRight op ll rr

/-- `eval` (src/expr.go): the tree-walking evaluator.  Panics are
modelled with `Except Panic`; `perr` for `fmt.Errorf`/runtime-error
panics, `pstr` for the `panic(err.Error())` string panics in the
`BasicLit` cases. -/
def eval (env : Env) : Ast → Except Panic Value
  | .binary op x y => do
      let ll := normalize (← eval env x)
      match op with
      | .land => do
          -- `boolCast(ll) && boolCast(eval(value, n.Y))`: Go's && evaluates
          -- the right conjunct only when the left one is true.
          let lb ← boolCast ll
          if lb then do
            let rb ← boolCast (← eval env y)
            pure (.vbool rb)
          else pure (.vbool false)
      | .lor => do
          let lb ← boolCast ll
          if lb then pure (.vbool true)
          else do
            let rb ← boolCast (← eval env y)
            pure (.vbool rb)
      | _ =>
        match ll with
        | .vbool l =>
          -- the bool branch comes first, before the right operand is
          -- evaluated eagerly
          match op with
          | .eql => do
              let r ← boolCast (← eval env y)
              pure (.vbool (l == r))
          | .neq => do
              let r ← boolCast (← eval env y)
              pure (.vbool (l != r))
          | _ => throw (.perr "unsupported boolean operation")
        | _ => do
          let rr := normalize (← eval env y)
          binRest op ll rr
  | .basicLit kind v =>
      match kind with
      | .str =>
        match unquoteGo v with
        | .ok s => pure (.vstring s)
        | .error e => throw (.pstr e)
      | .int =>
        match parseInt64 v with
        | .ok nu => pure (.vint nu)
        | .error e => throw (.pstr e)
      | .float =>
        match parseFloatLit v with
        | .ok f => pure (.vfloat f)
        | .error e => throw (.pstr e)
  | .paren x => eval env x
  | .unary op x =>
      if op = .not then do
        let b ← boolCast (← eval env x)
        pure (.vbool (!b))
      else throw (.perr ("unsupported unary operator " ++ unopString op))
  | .ident name =>
      match lookupEnv env name with
      | some v => pure (normalize v)
      | none =>
        if name = "true" then pure (.vbool true)
        else if name = "false" then pure (.vbool false)
        else pure .vnull
  | .selector x sel => do
      let v ← eval env x
      match v with
      | .vmap m =>
        match lookupEnv m sel with
        | some rv => pure rv
        | none => throw (.perr ("unknown attribute \"" ++ sel ++ "\" on " ++ sprintV v))
      | _ => throw (.perr ("unknown attribute \"" ++ sel ++ "\" on " ++ sprintV v))

/-- `index` (src/expr.go): term collection.  The Go function appends to a
slice through a pointer; the model threads the accumulator explicitly.
Only `BinaryExpr` (left, then right), `ParenExpr` (inner) and `Ident`
nodes are inspected; every other node kind is ignored. -/
def index : Ast → List String → List String
  | .binary _ x y, out => index y (index x out)
  | .paren x, out => index x out
  | .ident n, out =>
      if n ≠ "nil" ∧ n ≠ "true" ∧ n ≠ "false" then out ++ [n] else out
  | _, out => out

/-! ## Tokenizer and parser (`go/parser.ParseExpr` on this fragment)

The repository hands parsing to the Go standard library.  The model
reimplements `go/scanner`/`go/parser` restricted to the expression
fragment the package can consume: identifiers, INT/FLOAT/STRING basic
literals, the unary operators `! + - ^`, the binary operators, `.`
selectors and parentheses.  Binary expressions are parsed by precedence
climbing exactly as `go/parser.(parser).parseBinaryExpr` does, driven by
`go/token.(Token).Precedence`:

    1: ||   2: &&   3: == != < <= > >=
    4: + - | ^      5: * / % << >> & &^
-/

/-- Lexical tokens.  Literal tokens carry their source text. -/
inductive Token where
  | tident (s : String)
  | tint (s : String)
  | tfloat (s : String)
  | tstr (s : String)
  | top (o : BinOp)
  | tbang
  | tlparen
  | trparen
  | tdot
deriving DecidableEq, Inhabited

/-- `go/token.(Token).Precedence` for the binary operators;
`0` (`LowestPrec`) for every other token. -/
def tokPrec : Token → Nat
  | .top .lor => 1
  | .top .land => 2
  | .top .eql => 3
  | .top .neq => 3
  | .top .lss => 3
  | .top .leq => 3
  | .top .gtr => 3
  | .top .geq => 3
  | .top .add => 4
  | .top .sub => 4
  | .top .or => 4
  | .top .xor => 4
  | .top .mul => 5
  | .top .quo => 5
  | .top .rem => 5
  | .top .shl => 5
  | .top .shr => 5
  | .top .and => 5
  | .top .andnot => 5
  | _ => 0

/-- Identifier start characters (Go: letters and underscore). -/
def isIdentStart (c : Char) : Bool := c.isAlpha || c = '_'

/-- Identifier continuation characters. -/
def isIdentChar (c : Char) : Bool := c.isAlphanum || c = '_'

/-- Hexadecimal digit test. -/
def isHexDigit (c : Char) : Bool :=
  c.isDigit || (('a' ≤ c ∧ c ≤ 'f') ∨ ('A' ≤ c ∧ c ≤ 'F'))

/-- Scan the remainder of a double-quoted string literal (after the
opening quote), returning the literal text including both quotes. -/
def scanStringLit (acc : List Char) : List Char → Option (String × List Char)
  | [] => none
  | '"' :: rest => some (String.mk ('"' :: acc.reverse ++ ['"']), rest)
  | '\\' :: c :: rest => scanStringLit (c :: '\\' :: acc) rest
  | c :: rest => scanStringLit (c :: acc) rest

/-- Scan a number starting at a digit: hexadecimal (`0x...`) or decimal
with optional fraction and exponent, as `go/scanner` tokenizes them.
Returns the token and the rest of the input. -/
def scanNumber (cs : List Char) : Token × List Char :=
  match cs with
  | '0' :: 'x' :: rest =>
      let hex := rest.takeWhile isHexDigit
      (.tint (String.mk ('0' :: 'x' :: hex)), rest.drop hex.length)
  | '0' :: 'X' :: rest =>
      let hex := rest.takeWhile isHexDigit
      (.tint (String.mk ('0' :: 'X' :: hex)), rest.drop hex.length)
  | _ =>
      let intPart := cs.takeWhile Char.isDigit
      let afterInt := cs.drop intPart.length
      match afterInt with
      | '.' :: rest =>
          let frac := rest.takeWhile Char.isDigit
          let afterFrac := rest.drop frac.length
          let (ex, rest2) := scanExponent afterFrac
          (.tfloat (String.mk (intPart ++ '.' :: frac ++ ex)), rest2)
      | 'e' :: _ =>
          let (ex, rest2) := scanExponent afterInt
          (.tfloat (String.mk (intPart ++ ex)), rest2)
      | 'E' :: _ =>
          let (ex, rest2) := scanExponent afterInt
          (.tfloat (String.mk (intPart ++ ex)), rest2)
      | _ => (.tint (String.mk intPart), afterInt)
where
  /-- Scan an optional exponent suffix `e[±]digits`. -/
  scanExponent (cs : List Char) : List Char × List Char :=
    match cs with
    | 'e' :: '+' :: rest =>
        let ds := rest.takeWhile Char.isDigit
        ('e' :: '+' :: ds, rest.drop ds.length)
    | 'e' :: '-' :: rest =>
        let ds := rest.takeWhile Char.isDigit
        ('e' :: '-' :: ds, rest.drop ds.length)
    | 'e' :: rest =>
        let ds := rest.takeWhile Char.isDigit
        ('e' :: ds, rest.drop ds.length)
    | 'E' :: '+' :: rest =>
        let ds := rest.takeWhile Char.isDigit
        ('E' :: '+' :: ds, rest.drop ds.length)
    | 'E' :: '-' :: rest =>
        let ds := rest.takeWhile Char.isDigit
        ('E' :: '-' :: ds, rest.drop ds.length)
    | 'E' :: rest =>
        let ds := rest.takeWhile Char.isDigit
        ('E' :: ds, rest.drop ds.length)
    | _ => ([], cs)

/-- The scanner loop, fueled (each step consumes at least one character;
the fuel only bounds the recursion). -/
def scanAux : Nat → List Char → Except String (List Token)
  | 0, _ => .error "scanner: out of fuel"
  | _ + 1, [] => .ok []
  | fuel + 1, c :: cs =>
    if c = ' ' ∨ c = '\t' ∨ c = '\n' ∨ c = '\r' then scanAux fuel cs
    else if isIdentStart c then
      let name := (c :: cs).takeWhile isIdentChar
      do
        let ts ← scanAux fuel ((c :: cs).drop name.length)
        pure (.tident (String.mk name) :: ts)
    else if c.isDigit then
      let (tk, rest) := scanNumber (c :: cs)
      do
        let ts ← scanAux fuel rest
        pure (tk :: ts)
    else if c = '"' then
      match scanStringLit [] cs with
      | some (lit, rest) => do
          let ts ← scanAux fuel rest
          pure (.tstr lit :: ts)
      | none => .error "string literal not terminated"
    else
      match c, cs with
      | '&', '&' :: rest => do
          let ts ← scanAux fuel rest
          pure (.top .land :: ts)
      | '&', '^' :: rest => do
          let ts ← scanAux fuel rest
          pure (.top .andnot :: ts)
      | '&', rest => do
          let ts ← scanAux fuel rest
          pure (.top .and :: ts)
      | '|', '|' :: rest => do
          let ts ← scanAux fuel rest
          pure (.top .lor :: ts)
      | '|', rest => do
          let ts ← scanAux fuel rest
          pure (.top .or :: ts)
      | '=', '=' :: rest => do
          let ts ← scanAux fuel rest
          pure (.top .eql :: ts)
      | '!', '=' :: rest => do
          let ts ← scanAux fuel rest
          pure (.top .neq :: ts)
      | '!', rest => do
          let ts ← scanAux fuel rest
          pure (.tbang :: ts)
      | '<', '=' :: rest => do
          let ts ← scanAux fuel rest
          pure (.top .leq :: ts)
      | '<', '<' :: rest => do
          let ts ← scanAux fuel rest
          pure (.top .shl :: ts)
      | '<', rest => do
          let ts ← scanAux fuel rest
          pure (.top .lss :: ts)
      | '>', '=' :: rest => do
          let ts ← scanAux fuel rest
          pure (.top .geq :: ts)
      | '>', '>' :: rest => do
          let ts ← scanAux fuel rest
          pure (.top .shr :: ts)
      | '>', rest => do
          let ts ← scanAux fuel rest
          pure (.top .gtr :: ts)
      | '+', rest => do
          let ts ← scanAux fuel rest
          pure (.top .add :: ts)
      | '-', rest => do
          let ts ← scanAux fuel rest
          pure (.top .sub :: ts)
      | '*', rest => do
          let ts ← scanAux fuel rest
          pure (.top .mul :: ts)
      | '/', rest => do
          let ts ← scanAux fuel rest
          pure (.top .quo :: ts)
      | '%', rest => do
          let ts ← scanAux fuel rest
          pure (.top .rem :: ts)
      | '^', rest => do
          let ts ← scanAux fuel rest
          pure (.top .xor :: ts)
      | '.', rest => do
          let ts ← scanAux fuel rest
          pure (.tdot :: ts)
      | '(', rest => do
          let ts ← scanAux fuel rest
          pure (.tlparen :: ts)
      | ')', rest => do
          let ts ← scanAux fuel rest
          pure (.trparen :: ts)
      | _, _ => .error ("illegal character " ++ String.mk [c])

/-- Tokenize a source string. -/
def scanTokens (s : String) : Except String (List Token) :=
  scanAux (s.length + 1) s.data

mutual
/-- `parseBinaryExpr(prec)`: parse a unary expression, then fold in
binary operators of precedence at least `prec`, climbing one level for
the right operand (left associativity). -/
def parseBin (fuel prec : Nat) (ts : List Token) :
    Except String (Ast × List Token) :=
  match fuel with
  | 0 => .error "parser: out of fuel"
  | fuel + 1 => do
      let (x, ts) ← parseUn fuel ts
      parseBinLoop fuel prec x ts

/-- The operator-folding loop of `parseBinaryExpr`. -/
def parseBinLoop (fuel prec : Nat) (x : Ast) (ts : List Token) :
    Except String (Ast × List Token) :=
  match fuel with
  | 0 => .error "parser: out of fuel"
  | fuel + 1 =>
    match ts with
    | .top o :: rest =>
        if tokPrec (.top o) < prec then .ok (x, ts)
        else do
          let (y, ts2) ← parseBin fuel (tokPrec (.top o) + 1) rest
          parseBinLoop fuel prec (.binary o x y) ts2
    | _ => .ok (x, ts)

/-- `parseUnaryExpr`: unary operators `! + - ^` followed by a unary
expression, otherwise a primary expression. -/
def parseUn (fuel : Nat) (ts : List Token) :
    Except String (Ast × List Token) :=
  match fuel with
  | 0 => .error "parser: out of fuel"
  | fuel + 1 =>
    match ts with
    | .tbang :: rest => do
        let (x, ts2) ← parseUn fuel rest
        pure (.unary .not x, ts2)
    | .top .add :: rest => do
        let (x, ts2) ← parseUn fuel rest
        pure (.unary .add x, ts2)
    | .top .sub :: rest => do
        let (x, ts2) ← parseUn fuel rest
        pure (.unary .sub x, ts2)
    | .top .xor :: rest => do
        let (x, ts2) ← parseUn fuel rest
        pure (.unary .xor x, ts2)
    | _ => parsePrim fuel ts

/-- `parsePrimaryExpr`: an operand followed by selector suffixes
(`.` identifier); index and call suffixes are outside this fragment. -/
def parsePrim (fuel : Nat) (ts : List Token) :
    Except String (Ast × List Token) :=
  match fuel with
  | 0 => .error "parser: out of fuel"
  | fuel + 1 => do
      let (x, ts2) ← parseOperandE fuel ts
      parseSelLoop fuel x ts2

/-- The selector-suffix loop of `parsePrimaryExpr`. -/
def parseSelLoop (fuel : Nat) (x : Ast) (ts : List Token) :
    Except String (Ast × List Token) :=
  match fuel with
  | 0 => .error "parser: out of fuel"
  | fuel + 1 =>
    match ts with
    | .tdot :: .tident s :: rest => parseSelLoop fuel (.selector x s) rest
    | .tdot :: _ => .error "expected selector"
    | _ => .ok (x, ts)

/-- `parseOperand`: identifier, basic literal, or parenthesised
expression (wrapped in an explicit `ParenExpr`, as `go/parser` does). -/
def parseOperandE (fuel : Nat) (ts : List Token) :
    Except String (Ast × List Token) :=
  match fuel with
  | 0 => .error "parser: out of fuel"
  | fuel + 1 =>
    match ts with
    | .tident s :: rest => .ok (.ident s, rest)
    | .tint s :: rest => .ok (.basicLit .int s, rest)
    | .tfloat s :: rest => .ok (.basicLit .float s, rest)
    | .tstr s :: rest => .ok (.basicLit .str s, rest)
    | .tlparen :: rest => do
        let (x, ts2) ← parseBin fuel 1 rest
        match ts2 with
        | .trparen :: rest2 => .ok (.paren x, rest2)
        | _ => .error "expected closing parenthesis"
    | _ => .error "expected operand"
end

/-- `go/parser.ParseExpr`: tokenize, parse a whole expression starting at
the lowest binary precedence, and require end of input. -/
def parseExprGo (s : String) : Except String Ast := do
  let ts ← scanTokens s
  let (a, rest) ← parseBin (4 * ts.length + 8) 1 ts
  match rest with
  | [] => .ok a
  | _ => .error "expected EOF"

/-! ## The public surface (`Expression`) -/

/-- `Expression` (src/expr.go): the compiled bundle of AST, source text
and collected terms.  `ast` is `none` exactly for the empty source. -/
structure Expression where
  ast : Option Ast
  Expr : String
  Terms : List String
deriving Inhabited

/-- `Compile` / `(*Expression).compile`: empty source compiles to an
`Expression` with no AST and no terms; otherwise the source is parsed
and the terms collected. -/
def Compile (s : String) : Except String Expression :=
  if s = "" then .ok { ast := none, Expr := s, Terms := [] }
  else
    match parseExprGo s with
    | .ok a => .ok { ast := some a, Expr := s, Terms := index a [] }
    | .error e => .error e

/-- Result of `(*Expression).Eval`: a value, a returned error (`err`),
or a process crash (`crash`) — the latter when `eval` panicked with a
plain string and the deferred `err = e.(error)` type assertion panicked
in turn. -/
inductive EvalOutcome where
  | ok (v : Value)
  | err (msg : String)
  | crash (msg : String)
deriving Inhabited

/-- `(*Expression).Eval`: the empty expression returns the empty string;
otherwise the evaluator runs under a deferred `recover` that stores
`e.(error)` into the returned error.  A panic carrying a plain string
fails that type assertion and crashes the process.  An `Expression`
whose `ast` is nil with nonempty source (impossible via `Compile`) would
dereference a nil pointer; that runtime error is itself recovered. -/
def Expression.Eval (e : Expression) (env : Env) : EvalOutcome :=
  if e.Expr = "" then .ok (.vstring "")
  else
    match e.ast with
    | none => .err "runtime error: invalid memory address or nil pointer dereference"
    | some a =>
      match eval env a with
      | .ok v => .ok v
      | .error (.perr m) => .err m
      | .error (.pstr m) => .crash m

/-- `(*Expression).Bool`: truthiness of the evaluated expression.  The
empty expression is true; an error from `Eval` yields false; otherwise
`boolCast` runs *outside* any recover, so its panic (or a crash escaping
`Eval`) crashes the process — modelled as `Except.error`. -/
def Expression.Bool (e : Expression) (env : Env) : Except String Bool :=
  if e.Expr = "" then .ok true
  else
    match e.Eval env with
    | .err _ => .ok false
    | .crash m => .error m
    | .ok v =>
      match boolCast v with
      | .ok b => .ok b
      | .error (.perr m) => .error m
      | .error (.pstr m) => .error m

/-! ## Helper lemmas -/

/-- Normalization preserves nullness. -/
theorem normalize_isNull (v : Value) : (normalize v).isNull = v.isNull := by
  cases v <;> rfl

/-- Normalization preserves membership in the scalar operand families. -/
theorem normalize_isNumStr (v : Value) :
    (normalize v).isNumStr = v.isNumStr := by
  cases v <;> rfl

/-- Bind on a successful `Except` computation reduces to the
continuation. -/
theorem exceptBind_ok {ε α β : Type} (a : α) (f : α → Except ε β) :
    (Except.ok a : Except ε α) >>= f = f a := rfl

/-- Bind on a failed `Except` computation propagates the error. -/
theorem exceptBind_err {ε α β : Type} (e : ε) (f : α → Except ε β) :
    (Except.error e : Except ε α) >>= f = Except.error e := rfl

/-- `pure` in the `Except` monad is `Except.ok`. -/
theorem exceptPure_eq {ε α : Type} (a : α) :
    (pure a : Except ε α) = Except.ok a := rfl

/-- The monadic bind of `Except` is `Except.bind`. -/
theorem exceptBind_def {ε α β : Type} (m : Except ε α) (f : α → Except ε β) :
    m >>= f = Except.bind m f := rfl

/-- `Except.bind` on a success value, stated on the raw bind. -/
theorem exceptBind_ok_raw {ε α β : Type} (a : α) (f : α → Except ε β) :
    Except.bind (Except.ok a) f = f a := rfl

/-! ## Claims -/

/-- C1: the claim says every internal abort — including defensive
literal-parse failures such as re-parsing the INT literal `0x10` in
base 10, or an out-of-range decimal literal — is converted into a
returned error.  The code contradicts this: the `BasicLit` cases panic
with a plain string (`panic(err.Error())`), and the deferred recover in
`Eval` runs `err = e.(error)`, a type assertion that panics on a string,
so the process crashes instead of returning an error.  This theorem
evaluates the code at the failing inputs: both literals compile, and
`Eval` crashes with the `strconv.ParseInt` message. -/
theorem c1_literal_panic_crashes :
    Compile "0x10" =
      .ok { ast := some (.basicLit .int "0x10"), Expr := "0x10", Terms := [] }
  ∧ Expression.Eval
      { ast := some (.basicLit .int "0x10"), Expr := "0x10", Terms := [] } []
      = .crash "strconv.ParseInt: parsing \"0x10\": invalid syntax"
  ∧ Compile "99999999999999999999" =
      .ok { ast := some (.basicLit .int "99999999999999999999"),
            Expr := "99999999999999999999", Terms := [] }
  ∧ Expression.Eval
      { ast := some (.basicLit .int "99999999999999999999"),
        Expr := "99999999999999999999", Terms := [] } []
      = .crash "strconv.ParseInt: parsing \"99999999999999999999\": value out of range" :=
  ⟨rfl, rfl, rfl, rfl⟩

/-- C2 counterexample: the claim says `&` binds less tightly than `+`,
so that `"2 + 2 & 3"` parses as `(2 + 2) & 3` and evaluates to `0`.
The parser (Go operator precedence) produces `2 + (2 & 3)` — a
different tree — and evaluation yields `4`, not `0`. -/
theorem c2_counterexample :
    parseExprGo "2 + 2 & 3" =
      .ok (.binary .add (.basicLit .int "2")
            (.binary .and (.basicLit .int "2") (.basicLit .int "3")))
  ∧ (Ast.binary .add (.basicLit .int "2")
        (.binary .and (.basicLit .int "2") (.basicLit .int "3")) ≠
      Ast.binary .and
        (.binary .add (.basicLit .int "2") (.basicLit .int "2"))
        (.basicLit .int "3"))
  ∧ eval [] (.binary .add (.basicLit .int "2")
        (.binary .and (.basicLit .int "2") (.basicLit .int "3")))
      = .ok (.vint 4)
  ∧ Value.vint 4 ≠ Value.vint 0 :=
  ⟨rfl, by decide, rfl,
   fun h => by injection h with h2; exact absurd h2 (by decide)⟩

/-- C2 amended: the parser realizes Go's operator precedence
`|| < && < comparisons < (+ - | ^) < (* / % << >> & &^) < unary <
selector`; in particular the bitwise operators `&`, `&^` and the shifts
sit at the multiplicative level and `|`, `^` at the additive level, so
`"2 + 2 & 3"` parses as `2 + (2 & 3)` (evaluating to 4) and
`"6 / 1 << 1"` parses as `(6 / 1) << 1` (evaluating to 12). -/
theorem c2_amended :
    tokPrec (.top .lor) < tokPrec (.top .land)
  ∧ tokPrec (.top .land) < tokPrec (.top .eql)
  ∧ tokPrec (.top .eql) < tokPrec (.top .add)
  ∧ tokPrec (.top .add) < tokPrec (.top .mul)
  ∧ tokPrec (.top .or) = tokPrec (.top .add)
  ∧ tokPrec (.top .xor) = tokPrec (.top .add)
  ∧ tokPrec (.top .and) = tokPrec (.top .mul)
  ∧ tokPrec (.top .andnot) = tokPrec (.top .mul)
  ∧ tokPrec (.top .shl) = tokPrec (.top .mul)
  ∧ tokPrec (.top .shr) = tokPrec (.top .mul)
  ∧ parseExprGo "2 + 2 & 3" =
      .ok (.binary .add (.basicLit .int "2")
            (.binary .and (.basicLit .int "2") (.basicLit .int "3")))
  ∧ eval [] (.binary .add (.basicLit .int "2")
        (.binary .and (.basicLit .int "2") (.basicLit .int "3")))
      = .ok (.vint 4)
  ∧ parseExprGo "6 / 1 << 1" =
      .ok (.binary .shl
            (.binary .quo (.basicLit .int "6") (.basicLit .int "1"))
            (.basicLit .int "1"))
  ∧ eval [] (.binary .shl
        (.binary .quo (.basicLit .int "6") (.basicLit .int "1"))
        (.basicLit .int "1"))
      = .ok (.vint 12) :=
  ⟨by decide, by decide, by decide, by decide, rfl, rfl, rfl, rfl, rfl, rfl,
   rfl, rfl, rfl, rfl⟩

/-- C6: term collection traverses only `binary` (left child then right
child) and `paren` (inner child) nodes, appending in left-to-right
order, duplicates kept, the name of every identifier reached this way
whose name is not `"nil"`, `"true"` or `"false"`; it never descends into
`unary` or `selector` nodes.  Hence `"a + b * c + c"` collects
`["a","b","c","c"]`, while `"!Foo"` and `"Foo.Bar"` collect nothing. -/
theorem c6_term_collection :
    (∀ (out : List String) (op : BinOp) (x y : Ast),
        index (.binary op x y) out = index y (index x out))
  ∧ (∀ (out : List String) (x : Ast), index (.paren x) out = index x out)
  ∧ (∀ (out : List String) (n : String),
        index (.ident n) out =
          if n ≠ "nil" ∧ n ≠ "true" ∧ n ≠ "false" then out ++ [n] else out)
  ∧ (∀ (out : List String) (op : UnOp) (x : Ast),
        index (.unary op x) out = out)
  ∧ (∀ (out : List String) (x : Ast) (s : String),
        index (.selector x s) out = out)
  ∧ (∀ (out : List String) (k : LitKind) (v : String),
        index (.basicLit k v) out = out)
  ∧ (Compile "a + b * c + c").map Expression.Terms = .ok ["a", "b", "c", "c"]
  ∧ (Compile "!Foo").map Expression.Terms = .ok []
  ∧ (Compile "Foo.Bar").map Expression.Terms = .ok [] :=
  ⟨fun _ _ _ _ => rfl, fun _ _ => rfl, fun _ _ => rfl, fun _ _ _ => rfl,
   fun _ _ _ => rfl, fun _ _ _ => rfl, rfl, rfl, rfl⟩

/-- C7: compiling the empty string always succeeds with no AST and an
empty term list, and for every environment `Eval` returns the empty
string value with no error while `Bool` returns true. -/
theorem c7_empty_expression :
    Compile "" = .ok { ast := none, Expr := "", Terms := [] }
  ∧ (∀ env : Env,
      Expression.Eval { ast := none, Expr := "", Terms := [] } env
        = .ok (.vstring ""))
  ∧ (∀ env : Env,
      Expression.Bool { ast := none, Expr := "", Terms := [] } env
        = .ok true) :=
  ⟨rfl, fun _ => rfl, fun _ => rfl⟩

/-- C3 counterexample: the claim says that with a null left operand,
*every* operator other than `==`/`!=` yields `Null`.  But `&&` and `||`
are handled before the null rule: `"nil && true"` evaluates to
`Bool false`, not `Null`. -/
theorem c3_counterexample :
    parseExprGo "nil && true" =
      .ok (.binary .land (.ident "nil") (.ident "true"))
  ∧ eval [] (.binary .land (.ident "nil") (.ident "true"))
      = .ok (.vbool false)
  ∧ Value.vbool false ≠ Value.vnull :=
  ⟨rfl, rfl, fun h => Value.noConfusion h⟩

/-- C3 amended: for every binary node whose left operand evaluates
(after normalization) to `Null` and whose right operand evaluates to a
value, `==` returns true iff the right operand is also `Null`, `!=`
returns the complement, and every operator other than `==`, `!=`, `&&`
and `||` (the logical operators are handled earlier, by truthiness)
yields `Null` itself — the right operand is evaluated, its value
discarded, and no error is raised. -/
theorem c3_amended (env : Env) (x y : Ast) (r : Value)
    (hx : eval env x = .ok .vnull) (hy : eval env y = .ok r) :
    eval env (.binary .eql x y) = .ok (.vbool r.isNull)
  ∧ eval env (.binary .neq x y) = .ok (.vbool (!r.isNull))
  ∧ (∀ op : BinOp, op ≠ .eql → op ≠ .neq → op ≠ .land → op ≠ .lor →
      eval env (.binary op x y) = .ok .vnull) := by
  refine ⟨?_, ?_, ?_⟩
  · simp [eval, hx, hy, exceptBind_ok, exceptPure_eq, normalize, binRest,
      Value.isNull]
    cases r <;> rfl
  · simp [eval, hx, hy, exceptBind_ok, exceptPure_eq, normalize, binRest,
      Value.isNull]
    cases r <;> rfl
  · intro op h1 h2 h3 h4
    cases op
    case eql => exact absurd rfl h1
    case neq => exact absurd rfl h2
    case land => exact absurd rfl h3
    case lor => exact absurd rfl h4
    all_goals
      cases r <;> simp only [eval, hx, hy] <;> rfl

/-- Witness for C3 amended: `nil + 5` (left operand null, operator `+`)
evaluates to `Null` with no error, over the empty environment. -/
theorem c3_amended_witness :
    eval [] (.binary .add (.ident "nil") (.basicLit .int "5")) = .ok .vnull :=
  (c3_amended [] (.ident "nil") (.basicLit .int "5") (.vint 5) rfl rfl).2.2
    .add (by decide) (by decide) (by decide) (by decide)

/-- C4 counterexample: the claim says that whenever the left operand is
non-`Null` and the right operand is `Null`, `==` returns false.  But a
`Bool` left operand is dispatched before the null rules, and its `==`
compares against `boolCast` of the right operand: `"false == nil"`
evaluates to `Bool true`, not false. -/
theorem c4_counterexample :
    parseExprGo "false == nil" =
      .ok (.binary .eql (.ident "false") (.ident "nil"))
  ∧ eval [] (.binary .eql (.ident "false") (.ident "nil"))
      = .ok (.vbool true)
  ∧ Value.vbool true ≠ Value.vbool false :=
  ⟨rfl, rfl, fun h => by injection h with h2; exact Bool.noConfusion h2⟩

/-- C4 amended: for every binary node whose left operand evaluates to a
value of one of the four scalar families (`Int64`, `UInt64`, `Float64`,
`String`) and whose right operand evaluates to `Null`, `==` returns
false and `!=` returns true, and for every operator other than `==`,
`!=`, `&&` and `||` evaluation proceeds with the normal per-family
dispatch on the `Null` right operand, whose family casts coerce `Null`
to the zero value of the left operand's family (0, 0, 0.0, `""`). -/
theorem c4_amended (env : Env) (x y : Ast) (l : Value)
    (hx : eval env x = .ok l) (hl : l.isNumStr = true)
    (hy : eval env y = .ok .vnull) :
    eval env (.binary .eql x y) = .ok (.vbool false)
  ∧ eval env (.binary .neq x y) = .ok (.vbool true)
  ∧ (∀ op : BinOp, op ≠ .eql → op ≠ .neq → op ≠ .land → op ≠ .lor →
      eval env (.binary op x y) = binDispatch op (normalize l) .vnull)
  ∧ intCast .vnull = .ok 0
  ∧ uintCast .vnull = .ok 0
  ∧ floatCast .vnull = .ok 0.0
  ∧ stringCast .vnull = "" := by
  refine ⟨?_, ?_, ?_, rfl, rfl, rfl, rfl⟩
  · cases l <;> simp only [Value.isNumStr] at hl <;>
      first
      | exact Bool.noConfusion hl
      | (simp only [eval, hx, hy]; rfl)
  · cases l <;> simp only [Value.isNumStr] at hl <;>
      first
      | exact Bool.noConfusion hl
      | (simp only [eval, hx, hy]; rfl)
  · intro op h1 h2 h3 h4
    cases op
    case eql => exact absurd rfl h1
    case neq => exact absurd rfl h2
    case land => exact absurd rfl h3
    case lor => exact absurd rfl h4
    all_goals
      cases l <;> simp only [Value.isNumStr] at hl <;>
        first
        | exact Bool.noConfusion hl
        | (simp only [eval, hx, hy]; rfl)

/-- Witness for C4 amended: with `a = 7`, `a - nil` dispatches on the
int64 family with the null right operand, yielding `7 - 0 = 7`. -/
theorem c4_amended_witness :
    eval [("a", Value.vint 7)] (.binary .sub (.ident "a") (.ident "nil"))
      = binDispatch .sub (normalize (.vint 7)) .vnull
  ∧ binDispatch .sub (normalize (.vint 7)) .vnull = .ok (.vint 7) :=
  ⟨(c4_amended [("a", .vint 7)] (.ident "a") (.ident "nil") (.vint 7)
      rfl rfl rfl).2.2.1 .sub (by decide) (by decide) (by decide) (by decide),
   rfl⟩

/-- C5: short-circuit evaluation.  For every environment and
subexpressions `x`, `y`: `x && y` returns false without evaluating `y`
whenever the truthiness coercion of `x`'s normalized value is false, and
`x || y` returns true without evaluating `y` whenever that coercion is
true (the conclusion holds for *every* `y`, evaluable or not); otherwise
the result is the truthiness of `y`'s value. -/
theorem c5_short_circuit (env : Env) (x : Ast) (l : Value)
    (hx : eval env x = .ok l) :
    (boolCast (normalize l) = .ok false →
      ∀ y : Ast, eval env (.binary .land x y) = .ok (.vbool false))
  ∧ (boolCast (normalize l) = .ok true →
      ∀ y : Ast, eval env (.binary .lor x y) = .ok (.vbool true))
  ∧ (boolCast (normalize l) = .ok true →
      ∀ y : Ast, eval env (.binary .land x y) =
        Except.bind (eval env y) (fun rv =>
          Except.bind (boolCast rv) (fun rb => .ok (.vbool rb))))
  ∧ (boolCast (normalize l) = .ok false →
      ∀ y : Ast, eval env (.binary .lor x y) =
        Except.bind (eval env y) (fun rv =>
          Except.bind (boolCast rv) (fun rb => .ok (.vbool rb)))) := by
  refine ⟨?_, ?_, ?_, ?_⟩ <;> intro h y <;>
    simp [eval, hx, h, exceptBind_def, exceptBind_ok_raw, exceptPure_eq]

/-- Witness for C5: `true || <right operand>` is true even when the
right operand is the INT literal `0x10`, whose evaluation would panic
(the spec's `"true || false"` example, strengthened to a right operand
that is not evaluable). -/
theorem c5_short_circuit_witness :
    eval [] (.binary .lor (.ident "true") (.basicLit .int "0x10"))
      = .ok (.vbool true) :=
  (c5_short_circuit [] (.ident "true") (.vbool true) rfl).2.1 rfl
    (.basicLit .int "0x10")

/-- C8: `Bool` never surfaces an error: it returns true for the empty
expression, false whenever `Eval` returns an error, and otherwise the
truthiness coercion of `Eval`'s result; the coercion maps `Null` to
false, `Bool` to itself, `String` to non-emptiness and numbers to
non-zeroness. -/
theorem c8_bool_swallows_errors (e : Expression) (env : Env) :
    (e.Expr = "" → e.Bool env = .ok true)
  ∧ (∀ msg : String, e.Eval env = .err msg → e.Bool env = .ok false)
  ∧ (∀ (v : Value) (b : Bool), e.Expr ≠ "" → e.Eval env = .ok v →
      boolCast v = .ok b → e.Bool env = .ok b)
  ∧ boolCast .vnull = .ok false
  ∧ (∀ b : Bool, boolCast (.vbool b) = .ok b)
  ∧ (∀ s : String, boolCast (.vstring s) = .ok (s != ""))
  ∧ (∀ i : Int, boolCast (.vint i) = .ok (i != 0))
  ∧ (∀ u : Nat, boolCast (.vuint u) = .ok (u != 0))
  ∧ (∀ f : Float, boolCast (.vfloat f) = .ok (f != 0.0)) := by
  refine ⟨?_, ?_, ?_, rfl, fun _ => rfl, fun _ => rfl, fun _ => rfl,
    fun _ => rfl, fun _ => rfl⟩
  · intro h
    simp [Expression.Bool, h]
  · intro msg hm
    have hne : ¬ e.Expr = "" := by
      intro h0
      simp [Expression.Eval, h0] at hm
    simp [Expression.Bool, hne, hm]
  · intro v b hne hv hb
    simp [Expression.Bool, hne, hv, hb]

/-- Witness for C8: evaluating `1 / 0` returns a division-by-zero error,
which `Bool` swallows, reporting false. -/
theorem c8_bool_swallows_errors_witness :
    Expression.Bool
      { ast := some (.binary .quo (.basicLit .int "1") (.basicLit .int "0")),
        Expr := "1 / 0", Terms := [] } [] = .ok false :=
  (c8_bool_swallows_errors
      { ast := some (.binary .quo (.basicLit .int "1") (.basicLit .int "0")),
        Expr := "1 / 0", Terms := [] } []).2.1
    "runtime error: integer divide by zero" rfl

/-- C9: map-operand fallback.  For every binary node whose left operand
evaluates (after normalization) to a map value and whose right operand
evaluates to a non-`Null` value, every operator other than `&&` and `||`
returns the left map unchanged — operator and right value are ignored
and no error is raised. -/
theorem c9_map_fallback (env : Env) (x y : Ast) (op : BinOp)
    (m : List (String × Value)) (r : Value)
    (hx : eval env x = .ok (.vmap m)) (hy : eval env y = .ok r)
    (hr : r.isNull = false) (h1 : op ≠ .land) (h2 : op ≠ .lor) :
    eval env (.binary op x y) = .ok (.vmap m) := by
  cases op
  case land => exact absurd rfl h1
  case lor => exact absurd rfl h2
  all_goals
    cases r <;> simp only [Value.isNull] at hr <;>
      first
      | exact Bool.noConfusion hr
      | (simp only [eval, hx, hy]; rfl)

/-- Witness for C9: with `M` bound to a map, `M + 5` returns the map
itself, unchanged and without error. -/
theorem c9_map_fallback_witness :
    eval [("M", Value.vmap [("a", .vint 1)])]
      (.binary .add (.ident "M") (.basicLit .int "5"))
      = .ok (.vmap [("a", .vint 1)]) :=
  c9_map_fallback [("M", .vmap [("a", .vint 1)])] (.ident "M")
    (.basicLit .int "5") .add [("a", .vint 1)] (.vint 5) rfl rfl rfl
    (by decide) (by decide)

/-- C10 counterexample: the claim says *any* expression containing a
unary node whose operator is not `!` evaluates to an error and never a
value.  Short-circuiting refutes this: `"true || -5"` contains the
unary node `-5` yet evaluates to `Bool true` with no error. -/
theorem c10_counterexample :
    Compile "true || -5" =
      .ok { ast := some (.binary .lor (.ident "true")
                          (.unary .sub (.basicLit .int "5"))),
            Expr := "true || -5", Terms := [] }
  ∧ Expression.Eval
      { ast := some (.binary .lor (.ident "true")
                      (.unary .sub (.basicLit .int "5"))),
        Expr := "true || -5", Terms := [] } []
      = .ok (.vbool true) :=
  ⟨rfl, rfl⟩

/-- C10 amended: the parser accepts unary operators beyond logical not
(`"-5"` compiles, to a unary-minus node), but the evaluator supports
only `!`: evaluating a unary node whose operator is not `!` always
returns an `unsupported unary operator` error, so any expression in
which such a node is actually evaluated — in particular a negative
number literal by itself — errors; an expression merely containing such
a node can still return a value when short-circuiting skips the node. -/
theorem c10_amended :
    Compile "-5" =
      .ok { ast := some (.unary .sub (.basicLit .int "5")),
            Expr := "-5", Terms := [] }
  ∧ (∀ (env : Env) (op : UnOp) (x : Ast), op ≠ .not →
      eval env (.unary op x) =
        .error (.perr ("unsupported unary operator " ++ unopString op)))
  ∧ Expression.Eval
      { ast := some (.unary .sub (.basicLit .int "5")),
        Expr := "-5", Terms := [] } []
      = .err "unsupported unary operator -" := by
  refine ⟨rfl, ?_, rfl⟩
  intro env op x h
  cases op
  case not => exact absurd rfl h
  all_goals rfl

/-- Witness for C10 amended: `+z` (unary plus) evaluates to the
`unsupported unary operator +` error for the empty environment. -/
theorem c10_amended_witness :
    eval [] (.unary .add (.ident "z"))
      = .error (.perr "unsupported unary operator +") :=
  c10_amended.2.1 [] .add (.ident "z") (by decide)

end ExprGo


